import Mathlib

/-!
# Verification of the TDK-Lambda IOC serial core

A shallow embedding in Lean 4 of the core data structures and algorithms of
the `tdk-lambda-ioc` gateway: the bus scheduler (`src/serial/mux.rs`), the
addressed connection and SRQ filter (`src/serial/conn.rs`), the parser
adapters (`src/device/parser.rs`, `src/device/variable/device.rs`) and the
interface-side variable (`src/interface.rs`).

Rust machine integers are modelled as `Nat`; ASCII text handled by the
parser adapters is modelled as a list of byte values (`List Nat`); text that
is only ever compared for equality (command responses such as `"OK"`) is
modelled as Lean `String`.  Fallible operations return `Except` / `Option`.
Asynchronous transport exchanges are modelled by passing the outcome of each
exchange as an explicit argument, in the order the code performs them.
-/

namespace TdkLambda

/-- `pub type Addr = u8;` — an 8-bit device address (modelled as `Nat`). -/
abbrev Addr := Nat

/-- The serial error type (`enum Error` in `src/serial/mod.rs`): I/O error,
UTF-8 decode error, timeout, or an unexpected device-level response.  The
payloads of `Io`/`Decode` are modelled as the error's message string. -/
inductive Error where
  | io (msg : String)
  | decode (msg : String)
  | timeout
  | device (resp : String)
deriving DecidableEq, Repr

/-- Per-device lifecycle signal (`enum Signal`): `On`, `Off`, `Intr`. -/
inductive Signal where
  | on
  | off
  | intr
deriving DecidableEq, Repr

/-! ## Parser adapters (`src/device/parser.rs`)

Device-side ASCII text is modelled as a list of byte values.  `NumParser`
delegates to Rust's `FromStr`/`Display` for `T`; we model the integer
instantiations by explicit decimal formatting/parsing over `Nat.digits`. -/

/-- A byte string: device-side ASCII text as a list of byte values. -/
abbrev Text := List Nat

/-- Is `b` the byte value of an ASCII decimal digit (`'0'..='9'`)? -/
def isDigitByte (b : Nat) : Bool := 48 ≤ b && b ≤ 57

/-- Model of Rust's `Display` for unsigned integers: the decimal digit bytes
of `n`, most significant first (`"0"` for zero). -/
def natStoreBytes (n : Nat) : Text :=
  if n = 0 then [48] else ((Nat.digits 10 n).map (· + 48)).reverse

/-- Model of Rust's `FromStr` for unsigned integers: all bytes must be
decimal digits and the text must be non-empty. -/
def natLoadBytes (s : Text) : Option Nat :=
  if s = [] ∨ ¬ s.all isDigitByte then none
  else some (Nat.ofDigits 10 ((s.map (· - 48)).reverse))

/-- Model of Rust's `Display` for signed integers: a `'-'` byte (45) before
the decimal digits when negative. -/
def intStoreBytes (i : Int) : Text :=
  if i < 0 then 45 :: natStoreBytes i.natAbs else natStoreBytes i.toNat

/-- Model of Rust's `FromStr` for signed integers. -/
def intLoadBytes (s : Text) : Option Int :=
  if s.head? = some 45 then (natLoadBytes s.tail).map (fun n => -(n : Int))
  else (natLoadBytes s).map (fun n => (n : Int))

/-- `NumParser::load` (`src/device/parser.rs` lines 24-26) at an *integer*
instantiation of `T`: `text.parse::<T>().map_err(|_| text)`.  The program
instantiates `NumParser` both at integer types and — for the `MV`, `MC`,
`OVP`, `UVL`, `PV`, `PC` parameters — at `f64`; the `f64` instantiation
delegates to Rust's floating-point `FromStr`, whose semantics are outside
this embedding, so only the integer instantiation is modelled. -/
def NumParser.loadInt (text : Text) : Except Text Int :=
  match intLoadBytes text with
  | some v => .ok v
  | none => .error text

/-- `NumParser::store` (lines 27-29) at an *integer* instantiation of `T`:
`format!("{}", value)`.  As with `NumParser.loadInt`, the program's `f64`
instantiation (shortest-roundtrip floating-point `Display`) is outside this
embedding and is not modelled. -/
def NumParser.storeInt (value : Int) : Text := intStoreBytes value

/-- `BoolParser` (`src/device/parser.rs` lines 32-41): two configured
spellings, one for false and one for true. -/
structure BoolParser where
  false_ : Text
  true_ : Text
deriving DecidableEq, Repr

/-- `BoolParser::load` (lines 44-52): match against the false spelling, then
the true spelling; anything else is an error. -/
def BoolParser.load (p : BoolParser) (text : Text) : Except Text Nat :=
  if text = p.false_ then .ok 0
  else if text = p.true_ then .ok 1
  else .error text

/-- `BoolParser::store` (lines 53-59): `0` maps to the false spelling, any
other value to the true spelling. -/
def BoolParser.store (p : BoolParser) (value : Nat) : Text :=
  if value = 0 then p.false_ else p.true_

/-- The fixed-spelling `BoolParser` of `src/device/variable/device.rs`
(lines 30-42): spellings `"OFF"` / `"ON"` (ASCII bytes). -/
def boolParserOffOn : BoolParser := { false_ := [79, 70, 70], true_ := [79, 78] }

/-- `StringParser::load` (`src/device/parser.rs` lines 66-68): identity. -/
def StringParser.load (text : Text) : Except Text Text := .ok text

/-- `StringParser::store` (lines 69-71): identity. -/
def StringParser.store (value : Text) : Text := value

/-! ## Scheduler (`src/serial/mux.rs` lines 208-287)

Timestamps (`tokio::time::Instant`) are modelled as `Nat` (milliseconds);
`Instant::now()` is passed in explicitly as `now`.  The `VecDeque`s are
modelled as lists (front = head). -/

/-- `Duration::from_secs(1)` — the offline retry backoff, in ms. -/
def OFFLINE_BACKOFF : Nat := 1000

/-- Scheduler state (`struct Scheduler`, lines 208-213): the optional
current slot `(addr, is_online)`, the online queue, the offline queue of
`(earliest_retry, addr)` pairs, and the fairness counter. -/
structure Scheduler where
  current : Option (Addr × Bool)
  online : List Addr
  offline : List (Nat × Addr)
  counter : Nat
deriving DecidableEq, Repr

/-- `Scheduler::new` (lines 216-226): every address starts in the offline
queue with timestamp `now`; the queue is sorted (lexicographically on the
`(Instant, Addr)` pairs, all timestamps being equal). -/
def Scheduler.new (addrs : List Addr) (now : Nat) : Scheduler :=
  { current := none
    online := []
    offline := (addrs.map (fun a => (now, a))).mergeSort
      (fun p q => decide (p.1 < q.1) || (decide (p.1 = q.1) && decide (p.2 ≤ q.2)))
    counter := 0 }

/-- The selection performed by `Scheduler::current` (lines 228-253) when the
current slot is empty.  Returns the updated scheduler and, when the code had
to `sleep_until` the offline head's timestamp, that timestamp; returns
`none` when both queues are empty (the `?` early return, which leaves the
state untouched and does not increment the counter). -/
def Scheduler.pick (s : Scheduler) (now : Nat) : Option (Scheduler × Option Nat) :=
  match s.offline with
  | (ts, a) :: restOff =>
      if ts ≤ now ∧ (s.counter % 2 = 0 ∨ s.online = []) then
        some ({ s with
                  current := some (a, false)
                  offline := restOff
                  counter := s.counter + 1 }, none)
      else
        match s.online with
        | oa :: restOn =>
            some ({ s with
                      current := some (oa, true)
                      online := restOn
                      offline := (ts, a) :: restOff
                      counter := s.counter + 1 }, none)
        | [] =>
            some ({ s with
                      current := some (a, false)
                      offline := restOff
                      counter := s.counter + 1 }, some ts)
  | [] =>
      match s.online with
      | oa :: restOn =>
          some ({ s with
                    current := some (oa, true)
                    online := restOn
                    counter := s.counter + 1 }, none)
      | [] => none

/-- `Scheduler::current` (lines 228-253): when the current slot is already
occupied the state is returned unchanged (the guard is handed out again);
otherwise a selection is made by `pick`. -/
def Scheduler.currentStep (s : Scheduler) (now : Nat) : Option (Scheduler × Option Nat) :=
  match s.current with
  | some _ => some (s, none)
  | none => s.pick now

/-- `SchedGuard::yield_online` (lines 271-274): move the current address to
the back of the online queue.  The guard can only exist when `current` is
occupied; the `none` case is a harmless no-op to totalise the model. -/
def Scheduler.yieldOnline (s : Scheduler) : Scheduler :=
  match s.current with
  | some (a, _) => { s with current := none, online := s.online ++ [a] }
  | none => s

/-- `SchedGuard::yield_offline` (lines 275-279): move the current address to
the back of the offline queue with timestamp `now + OFFLINE_BACKOFF`. -/
def Scheduler.yieldOffline (s : Scheduler) (now : Nat) : Scheduler :=
  match s.current with
  | some (a, _) =>
      { s with current := none, offline := s.offline ++ [(now + OFFLINE_BACKOFF, a)] }
  | none => s

/-- One scheduler operation, as driven by the multiplexer loop. -/
inductive SchedOp where
  | select (now : Nat)
  | yieldOnline
  | yieldOffline (now : Nat)
deriving DecidableEq, Repr

/-- Apply one operation; a failed selection leaves the state unchanged. -/
def Scheduler.apply (s : Scheduler) : SchedOp → Scheduler
  | .select now =>
      match s.currentStep now with
      | some (s2, _) => s2
      | none => s
  | .yieldOnline => s.yieldOnline
  | .yieldOffline now => s.yieldOffline now

/-- Apply a sequence of operations, oldest first. -/
def Scheduler.applyAll (s : Scheduler) : List SchedOp → Scheduler
  | [] => s
  | op :: ops => (s.apply op).applyAll ops

/-- All addresses held by the scheduler: the current slot, the online queue
and the offline queue. -/
def Scheduler.addrList (s : Scheduler) : List Addr :=
  (s.current.map Prod.fst).toList ++ s.online ++ s.offline.map Prod.snd

/-! ## Addressed connection (`src/serial/conn.rs` lines 23-74)

The underlying `Connection::request` exchanges are asynchronous transport
interactions; their outcomes are passed in as explicit `Except Error String`
arguments, in the order the code performs them. -/

/-- The outcome of `AddrConnection::request`: the returned result, the
`active` cache afterwards, and which exchanges were actually performed. -/
structure RequestResult where
  result : Except Error String
  active : Option Addr
  didAdr : Bool
  didCmd : Bool
deriving Repr

/-- The command-execution phase of `AddrConnection::request` (lines 52-56):
on success return the response (`active` stays `Some(addr)`); on error take
`active` (clearing it to `None`) and propagate. -/
def cmdPhase (addr : Addr) (cmdRes : Except Error String) (didAdr : Bool) :
    RequestResult :=
  match cmdRes with
  | .ok resp => ⟨.ok resp, some addr, didAdr, true⟩
  | .error e => ⟨.error e, none, didAdr, true⟩

/-- `AddrConnection::request` (lines 36-57).  `adrRes` is the outcome of the
`ADR {addr}` exchange (consulted only when it is issued), `cmdRes` the
outcome of the command exchange (consulted only when reached).  The
addressing phase runs when `active != Some(addr)`; a non-`"OK"` reply gives
`Error::Device` and an exchange error propagates, in both cases via `?`,
leaving `active` untouched; on `"OK"` the cache is set to `Some(addr)` and
the command phase runs. -/
def AddrConnection.request (active : Option Addr) (addr : Addr)
    (adrRes cmdRes : Except Error String) : RequestResult :=
  if active = some addr then cmdPhase addr cmdRes false
  else
    match adrRes with
    | .ok resp =>
        if resp = "OK" then cmdPhase addr cmdRes true
        else ⟨.error (.device resp), active, true, false⟩
    | .error e => ⟨.error e, active, true, false⟩

/-- `AddrConnection::is_online` (lines 59-73): `self.active.take()` clears
the cache first; then the `ADR {addr}` exchange runs with outcome `adrRes`.
Returns the result and the `active` cache afterwards. -/
def AddrConnection.is_online (addr : Addr) (adrRes : Except Error String) :
    Except Error Bool × Option Addr :=
  match adrRes with
  | .ok resp =>
      if resp = "OK" then (.ok true, some addr) else (.error (.device resp), none)
  | .error .timeout => (.ok false, none)
  | .error e => (.error e, none)

/-! ## Framed connection retry loop (`src/serial/conn.rs` lines 89-126) -/

/-- Modelled from the spec: the constants `CMD_DELAY`, `CMD_TIMEOUT` and
`CMD_RETRIES` used by `Connection::request` (`src/serial/conn.rs` lines
90-94) are not defined anywhere under `src/` (the snapshot's
`src/serial/mod.rs` predates them).  The spec's timing defaults say
"retries 2" and "On timeout, retry up to a small bound (≈2 additional
attempts)", i.e. one initial attempt plus two retries — three total
attempts; the loop `for i in 0..CMD_RETRIES` counts total attempts (its
log message labels iteration `i` as "attempt i+1"), so the loop bound is 3. -/
def CMD_RETRIES : Nat := 3

/-- The outcome of one attempt of `Connection::request` (one
delay/clear/write/flush/read-until-`\r` round): the per-attempt timeout
expired, an I/O error surfaced, the read line failed UTF-8 decoding, or a
response line was obtained. -/
inductive AttemptOutcome where
  | timedOut
  | ioError (msg : String)
  | decodeError (msg : String)
  | ok (resp : String)
deriving DecidableEq, Repr

/-- The retry loop of `Connection::request` (lines 90-125): run attempts
`i, i+1, ...` while `fuel` remains; a timed-out attempt retries, any other
outcome returns immediately; exhausted fuel yields `Error::Timeout`.
Returns the result and the total number of attempts performed. -/
def requestLoop (attempt : Nat → AttemptOutcome) (i fuel : Nat) :
    Except Error String × Nat :=
  match fuel with
  | 0 => (.error .timeout, i)
  | fuel + 1 =>
      match attempt i with
      | .timedOut => requestLoop attempt (i + 1) fuel
      | .ioError msg => (.error (.io msg), i + 1)
      | .decodeError msg => (.error (.decode msg), i + 1)
      | .ok resp => (.ok resp, i + 1)

/-- `Connection::request` (lines 89-126): `for i in 0..CMD_RETRIES`, with
the outcome of attempt `i` given by `attempt i`. -/
def Connection.request (attempt : Nat → AttemptOutcome) : Except Error String × Nat :=
  requestLoop attempt 0 CMD_RETRIES

/-! ## SRQ filter (`src/serial/conn.rs` lines 15-21 and 161-227) -/

/-- `byte_is_intr` (lines 15-21): a byte with the high bit set encodes the
SRQ address `b - 0x80`. -/
def byte_is_intr (b : Nat) : Option Addr :=
  if 0x80 ≤ b then some (b - 0x80) else none

/-- One iteration of the byte loop in `FilterReader::poll_read` (lines
195-216): given the pending slot and the next byte, return the new pending
slot, the bytes passed through, and the SRQ addresses emitted. -/
def filterStep (prev : Option Addr) (b : Nat) :
    Option Addr × List Nat × List Addr :=
  match prev, byte_is_intr b with
  | some p, some a => (none, [], if a = p then [a] else [])
  | none, some a => (some a, [], [])
  | _, none => (none, [b], [])

/-- The byte loop over a whole chunk. -/
def filterChunk (prev : Option Addr) (chunk : List Nat) :
    Option Addr × List Nat × List Addr :=
  match chunk with
  | [] => (prev, [], [])
  | b :: rest =>
      let r1 := filterStep prev b
      let r2 := filterChunk r1.1 rest
      (r2.1, r1.2.1 ++ r2.2.1, r1.2.2 ++ r2.2.2)

/-- The poll outcome of `FilterReader::poll_read`. -/
inductive PollResult where
  | ready (bytes : List Nat)
  | pending
deriving DecidableEq, Repr

/-- `FilterReader::poll_read` (lines 179-227) for one successful inner read
that produced `chunk` (empty chunk = stream closed, returned as-is): filter
the chunk; if zero bytes remain while the raw input was non-empty, report
`Poll::Pending`, otherwise `Poll::Ready` with the filtered bytes.  Returns
the new pending slot, the poll result, and the SRQ addresses sent. -/
def FilterReader.poll_read (prev : Option Addr) (chunk : List Nat) :
    Option Addr × PollResult × List Addr :=
  if chunk = [] then (prev, .ready [], [])
  else
    let r := filterChunk prev chunk
    if r.2.1 = [] then (r.1, .pending, r.2.2) else (r.1, .ready r.2.1, r.2.2)

/-! ## Multiplexer queued branch (`src/serial/mux.rs` lines 93-206) -/

/-- A queued transmission (`enum QueTx`): a command or a `Yield` marker. -/
inductive QueTx where
  | cmd (c : String)
  | yieldMark
deriving DecidableEq, Repr

/-- What the served turn does with the scheduler guard: drop it without
yielding (current slot stays occupied), yield online, or yield offline. -/
inductive SchedAction where
  | keep
  | yieldOnline
  | yieldOffline
deriving DecidableEq, Repr

/-- Observable outcome of one queued-branch turn. -/
structure TurnResult where
  sigs : List Signal
  action : SchedAction
  response : Option String
  pendingAfter : List QueTx
  drained : List QueTx
  checkedOnline : Bool
deriving DecidableEq, Repr

/-- `get_queued` (lines 131-157): when the guard says online, take the next
pending queued request if there is one (`None` models the yield timeout
firing first); when offline, drain all pending requests without responding.
Returns the request obtained, the requests still pending, and the requests
drained. -/
def get_queued (isOnline : Bool) (pending : List QueTx) :
    Option QueTx × List QueTx × List QueTx :=
  if isOnline then
    match pending with
    | t :: rest => (some t, rest, [])
    | [] => (none, [], [])
  else (none, [], pending)

/-- `request_queued` (lines 159-186): a command is executed on the bus with
outcome `busResult`; success responds and drops the guard, failure sends
`Signal::Off` and yields offline; a `Yield` marker or the timeout (`None`)
yields online. -/
def request_queued (req : Option QueTx) (busResult : Except Error String) :
    List Signal × SchedAction × Option String :=
  match req with
  | some (.cmd _) =>
      match busResult with
      | .ok resp => ([], .keep, some resp)
      | .error _ => ([.off], .yieldOffline, none)
  | some .yieldMark => ([], .yieldOnline, none)
  | none => ([], .yieldOnline, none)

/-- `check_online` (lines 188-206): `B.is_online(addr)` returned
`onlineRes`; `Ok(true)` sends `Signal::On` and yields online, `Ok(false)`
or an error yields offline. -/
def check_online (onlineRes : Except Error Bool) : List Signal × SchedAction :=
  match onlineRes with
  | .ok true => ([.on], .yieldOnline)
  | .ok false => ([], .yieldOffline)
  | .error _ => ([], .yieldOffline)

/-- One turn of the queued branch of `Multiplexer::run` (lines 99-105):
`get_queued`, then `request_queued` when the device is online, otherwise
`check_online`.  `busResult` / `onlineRes` are the bus outcomes, consulted
only when the respective exchange happens. -/
def queuedTurn (isOnline : Bool) (pending : List QueTx)
    (busResult : Except Error String) (onlineRes : Except Error Bool) :
    TurnResult :=
  let g := get_queued isOnline pending
  if isOnline then
    let r := request_queued g.1 busResult
    ⟨r.1, r.2.1, r.2.2, g.2.1, g.2.2, false⟩
  else
    let r := check_online onlineRes
    ⟨r.1, r.2, none, g.2.1, g.2.2, true⟩

/-! ## Interface-side variable (`src/interface.rs` lines 77-143)

The external variable library's `ValueGuard` is modelled by the in-guard
contents of type `V`; an adapter converts between `V` and the typed value
`T` (`ScalarAdapter` is the identity). -/

/-- An `Adapter<T, V>` (lines 47-50): `load` reads the typed value from the
guard contents, `store` writes it. -/
structure Adapter (T V : Type) where
  load : V → T
  store : V → T → V

/-- `ScalarAdapter` (lines 52-62) at a scalar type: load is the contents,
store replaces them. -/
def scalarAdapter (T : Type) : Adapter T T := ⟨id, fun _ v => v⟩

/-- `IfaceVariable` state (lines 78-82): the variable's committed contents
and `last_value`. -/
structure IfaceVariable (T V : Type) where
  contents : V
  last_value : Option T

/-- The guard returned by `IfaceVariable::read` (lines 120-125): the
snapshotted value, the in-guard contents, and the (borrowed) `last_value`. -/
structure ReadGuard (T V : Type) where
  value : T
  guard : V
  last_value : Option T

/-- `IfaceVariable::read` (lines 93-105): acquire the guard, snapshot the
value via the adapter, and if `last_value` is present overwrite the
in-guard contents with it. -/
def IfaceVariable.read (A : Adapter T V) (s : IfaceVariable T V) :
    ReadGuard T V :=
  let value := A.load s.contents
  let guard :=
    match s.last_value with
    | some lv => A.store s.contents lv
    | none => s.contents
  ⟨value, guard, s.last_value⟩

/-- `ReadGuard::accept` (lines 128-132): store the snapshotted value into
the guard, set `last_value = Some(value)`, and commit the guard.  Returns
the committed contents and the new `last_value`. -/
def ReadGuard.accept (A : Adapter T V) (g : ReadGuard T V) : V × Option T :=
  (A.store g.guard g.value, some g.value)

/-- `ReadGuard::reject` (lines 133-135): reject with `format!("{}", reason)`
(the identity on an already-formatted string); `last_value` is left alone.
Returns the surviving `last_value` and the reason handed to the external
`reject`. -/
def ReadGuard.reject (g : ReadGuard T V) (reason : String) :
    Option T × String :=
  (g.last_value, reason)

/-- The byte loop over a sequence of chunks, threading the pending slot
from one `poll_read` to the next (the filter state persists between
polls). -/
def filterChunks (prev : Option Addr) (chunks : List (List Nat)) :
    Option Addr × List Nat × List Addr :=
  match chunks with
  | [] => (prev, [], [])
  | c :: rest =>
      let r1 := filterChunk prev c
      let r2 := filterChunks r1.1 rest
      (r2.1, r1.2.1 ++ r2.2.1, r1.2.2 ++ r2.2.2)

/-! ## Helper lemmas -/

/-! ### Round-trip lemmas for the numeric model -/

lemma natStoreBytes_ne_nil (n : Nat) : natStoreBytes n ≠ [] := by
  unfold natStoreBytes
  split
  · simp
  · simp [Nat.digits_ne_nil_iff_ne_zero, *]

lemma mem_natStoreBytes_digit {n b : Nat} (h : b ∈ natStoreBytes n) :
    48 ≤ b ∧ b ≤ 57 := by
  unfold natStoreBytes at h
  split at h
  · simp at h; omega
  · simp only [List.mem_reverse, List.mem_map] at h
    obtain ⟨d, hd, rfl⟩ := h
    have := Nat.digits_lt_base (by norm_num) hd
    omega

lemma natLoadBytes_natStoreBytes (n : Nat) :
    natLoadBytes (natStoreBytes n) = some n := by
  unfold natLoadBytes
  rw [if_neg]
  · congr 1
    unfold natStoreBytes
    split
    · subst n; simp [Nat.ofDigits]
    · rw [List.map_reverse, List.reverse_reverse, List.map_map]
      have hmap : (Nat.digits 10 n).map ((· - 48) ∘ (· + 48)) =
          (Nat.digits 10 n).map id := by
        apply List.map_congr_left
        intro d _
        simp
      rw [hmap, List.map_id]
      exact Nat.ofDigits_digits 10 n
  · push_neg
    constructor
    · exact natStoreBytes_ne_nil n
    · rw [List.all_eq_true]
      intro b hb
      have := mem_natStoreBytes_digit hb
      simp [isDigitByte]; omega

lemma head_natStoreBytes_ne_45 (n : Nat) : (natStoreBytes n).head? ≠ some 45 := by
  intro h
  cases hs : natStoreBytes n with
  | nil => exact natStoreBytes_ne_nil n hs
  | cons a t =>
      rw [hs] at h
      simp only [List.head?_cons, Option.some.injEq] at h
      have hmem : (45 : Nat) ∈ natStoreBytes n := by
        rw [hs, ← h]
        exact List.mem_cons_self a t
      have := mem_natStoreBytes_digit hmem
      omega

lemma intLoadBytes_intStoreBytes (i : Int) :
    intLoadBytes (intStoreBytes i) = some i := by
  by_cases hi : i < 0
  · rw [intStoreBytes, if_pos hi, intLoadBytes]
    simp only [List.head?_cons, if_pos rfl, List.tail_cons, natLoadBytes_natStoreBytes]
    have hv : -((i.natAbs : Nat) : Int) = i := by omega
    exact congrArg some hv
  · rw [intStoreBytes, if_neg hi, intLoadBytes, if_neg (head_natStoreBytes_ne_45 _),
      natLoadBytes_natStoreBytes]
    have hv : ((i.toNat : Nat) : Int) = i := by omega
    exact congrArg some hv

/-! ### Scheduler conservation lemmas -/

lemma addrList_pick_perm (onl : List Addr) (off : List (Nat × Addr)) (cnt now : Nat) :
    ∀ s2 slept, Scheduler.pick ⟨none, onl, off, cnt⟩ now = some (s2, slept) →
      s2.addrList.Perm (Scheduler.addrList ⟨none, onl, off, cnt⟩) := by
  intro s2 slept h
  cases off with
  | cons p restOff =>
      obtain ⟨ts, a⟩ := p
      simp only [Scheduler.pick] at h
      by_cases hc : ts ≤ now ∧ (cnt % 2 = 0 ∨ onl = [])
      · rw [if_pos hc] at h
        injection h with h2
        injection h2 with ha hb
        subst ha
        show (a :: (onl ++ restOff.map Prod.snd)).Perm
          (onl ++ a :: restOff.map Prod.snd)
        exact List.perm_middle.symm
      · rw [if_neg hc] at h
        cases onl with
        | cons oa restOn =>
            injection h with h2
            injection h2 with ha hb
            subst ha
            exact List.Perm.refl _
        | nil =>
            injection h with h2
            injection h2 with ha hb
            subst ha
            exact List.Perm.refl _
  | nil =>
      cases onl with
      | cons oa restOn =>
          simp only [Scheduler.pick] at h
          injection h with h2
          injection h2 with ha hb
          subst ha
          exact List.Perm.refl _
      | nil =>
          simp only [Scheduler.pick] at h
          exact Option.noConfusion h

lemma addrList_apply_perm (s : Scheduler) (op : SchedOp) :
    (s.apply op).addrList.Perm s.addrList := by
  obtain ⟨cur, onl, off, cnt⟩ := s
  cases op with
  | select now =>
      simp only [Scheduler.apply, Scheduler.currentStep]
      cases cur with
      | some c => exact List.Perm.refl _
      | none =>
          cases hp : Scheduler.pick ⟨none, onl, off, cnt⟩ now with
          | none => exact List.Perm.refl _
          | some r =>
              obtain ⟨s2, slept⟩ := r
              exact addrList_pick_perm onl off cnt now s2 slept hp
  | yieldOnline =>
      simp only [Scheduler.apply, Scheduler.yieldOnline]
      cases cur with
      | none => exact List.Perm.refl _
      | some c =>
          obtain ⟨a, b⟩ := c
          show ((onl ++ [a]) ++ off.map Prod.snd).Perm
            (a :: (onl ++ off.map Prod.snd))
          rw [List.append_assoc]
          exact List.perm_middle
  | yieldOffline now =>
      simp only [Scheduler.apply, Scheduler.yieldOffline]
      cases cur with
      | none => exact List.Perm.refl _
      | some c =>
          obtain ⟨a, b⟩ := c
          show (onl ++ (off ++ [(now + OFFLINE_BACKOFF, a)]).map Prod.snd).Perm
            (a :: (onl ++ off.map Prod.snd))
          rw [List.map_append]
          exact (List.Perm.append_left onl
            (List.perm_append_singleton a (off.map Prod.snd))).trans List.perm_middle

lemma addrList_applyAll_perm (s : Scheduler) (ops : List SchedOp) :
    (s.applyAll ops).addrList.Perm s.addrList := by
  induction ops generalizing s with
  | nil => exact List.Perm.refl _
  | cons op ops ih => exact (ih (s.apply op)).trans (addrList_apply_perm s op)

lemma addrList_new_perm (addrs : List Addr) (now : Nat) :
    (Scheduler.new addrs now).addrList.Perm addrs := by
  show (((addrs.map (fun a => (now, a))).mergeSort
      (fun p q => decide (p.1 < q.1) || (decide (p.1 = q.1) && decide (p.2 ≤ q.2)))).map
        Prod.snd).Perm addrs
  have h1 := List.mergeSort_perm (addrs.map (fun a => (now, a)))
    (fun p q => decide (p.1 < q.1) || (decide (p.1 = q.1) && decide (p.2 ≤ q.2)))
  have h2 := h1.map Prod.snd
  rw [List.map_map,
    show (Prod.snd ∘ fun a => ((now, a) : Nat × Addr)) = id from rfl,
    List.map_id] at h2
  exact h2

/-! ### Retry-loop and filter lemmas -/

lemma requestLoop_all_timeout (attempt : Nat → AttemptOutcome)
    (h : ∀ i, attempt i = .timedOut) :
    ∀ fuel i, requestLoop attempt i fuel = (.error .timeout, i + fuel) := by
  intro fuel
  induction fuel with
  | zero => intro i; simp [requestLoop]
  | succ f ih =>
      intro i
      rw [requestLoop, h i, ih (i + 1)]
      have hadd : i + 1 + f = i + (f + 1) := by omega
      rw [hadd]

lemma filterStep_out (prev : Option Addr) (b : Nat) :
    (filterStep prev b).2.1 = if b < 0x80 then [b] else [] := by
  by_cases hb : 0x80 ≤ b
  · rw [if_neg (by omega)]
    cases prev <;> simp [filterStep, byte_is_intr, hb]
  · rw [if_pos (by omega)]
    cases prev <;> simp [filterStep, byte_is_intr, hb]

lemma filterChunk_out (chunk : List Nat) :
    ∀ prev, (filterChunk prev chunk).2.1 =
      chunk.filter (fun b => decide (b < 0x80)) := by
  induction chunk with
  | nil => intro prev; simp [filterChunk]
  | cons b rest ih =>
      intro prev
      simp only [filterChunk]
      rw [filterStep_out, ih]
      by_cases hb : b < 0x80
      · simp [List.filter_cons, hb]
      · simp [List.filter_cons, hb]

lemma filterChunks_out (chunks : List (List Nat)) :
    ∀ prev, (filterChunks prev chunks).2.1 =
      chunks.flatten.filter (fun b => decide (b < 0x80)) := by
  induction chunks with
  | nil => intro prev; simp [filterChunks]
  | cons c rest ih =>
      intro prev
      simp only [filterChunks, List.flatten_cons]
      rw [filterChunk_out, ih, List.filter_append]

/-! ## Claim theorems -/

/-- The round-trip fragments of the parser adapters that are provable
without floating-point semantics: the integer instantiation of `NumParser`,
`BoolParser` on its 0/1 value domain under a configuration with distinct
spellings, and `StringParser`.  (The program's `f64` instantiations of
`NumParser` are outside this embedding.) -/
lemma parser_roundtrip_fragments :
    (∀ v : Int, NumParser.loadInt (NumParser.storeInt v) = .ok v) ∧
    (∀ p : BoolParser, ∀ v : Nat, p.false_ ≠ p.true_ → v < 2 →
        p.load (p.store v) = .ok v) ∧
    (∀ v : Text, StringParser.load (StringParser.store v) = .ok v) := by
  refine ⟨fun v => ?_, fun p v hne hv => ?_, fun v => rfl⟩
  · unfold NumParser.loadInt NumParser.storeInt
    rw [intLoadBytes_intStoreBytes]
  · interval_cases v
    · simp [BoolParser.load, BoolParser.store]
    · simp [BoolParser.load, BoolParser.store, Ne.symm hne]

/-- The boolean round-trip at `v = 1` for the fixed `OFF`/`ON` parser of
`src/device/variable/device.rs`, as a concrete instance. -/
lemma parser_roundtrip_fragments_instance :
    boolParserOffOn.load (boolParserOffOn.store 1) = .ok 1 :=
  parser_roundtrip_fragments.2.1 boolParserOffOn 1 (by decide) (by decide)

/-- C4: `AddrConnection::request(addr, cmd)` performs the `ADR` exchange iff
the cached active address differs from `Some(addr)`; a non-`"OK"` `ADR`
reply returns `Err(Device(reply))`; after a successful `ADR` the command
exchange runs; a failing command exchange clears `active` to `None` and
propagates the error; a successful one returns the response with `active`
still `Some(addr)`. -/
theorem addr_request_behavior (active : Option Addr) (addr : Addr)
    (adrRes cmdRes : Except Error String) :
    ((AddrConnection.request active addr adrRes cmdRes).didAdr = true ↔
        active ≠ some addr) ∧
    (∀ resp, active ≠ some addr → adrRes = .ok resp → resp ≠ "OK" →
        (AddrConnection.request active addr adrRes cmdRes).result =
          .error (.device resp)) ∧
    (active ≠ some addr → adrRes = .ok "OK" →
        (AddrConnection.request active addr adrRes cmdRes).didCmd = true) ∧
    (∀ e, (active = some addr ∨ adrRes = .ok "OK") → cmdRes = .error e →
        (AddrConnection.request active addr adrRes cmdRes).result = .error e ∧
        (AddrConnection.request active addr adrRes cmdRes).active = none) ∧
    (∀ resp, (active = some addr ∨ adrRes = .ok "OK") → cmdRes = .ok resp →
        (AddrConnection.request active addr adrRes cmdRes).result = .ok resp ∧
        (AddrConnection.request active addr adrRes cmdRes).active = some addr) := by
  by_cases hact : active = some addr
  · refine ⟨by cases cmdRes <;> simp [AddrConnection.request, hact, cmdPhase],
      ?_, ?_, ?_, ?_⟩
    · intro resp hne _ _; exact absurd hact hne
    · intro hne _; exact absurd hact hne
    · intro e _ hcmd; subst hcmd
      simp [AddrConnection.request, hact, cmdPhase]
    · intro resp _ hcmd; subst hcmd
      simp [AddrConnection.request, hact, cmdPhase]
  · refine ⟨?_, ?_, ?_, ?_, ?_⟩
    · constructor
      · intro _; exact hact
      · intro _
        cases adrRes with
        | error e => simp [AddrConnection.request, hact]
        | ok resp =>
            by_cases hr : resp = "OK"
            · subst hr
              cases cmdRes <;> simp [AddrConnection.request, hact, cmdPhase]
            · simp [AddrConnection.request, hact, hr]
    · intro resp _ hadr hne
      subst hadr
      simp [AddrConnection.request, hact, hne]
    · intro _ hadr
      subst hadr
      simp [AddrConnection.request, hact, cmdPhase]
      cases cmdRes <;> simp [cmdPhase]
    · intro e hor hcmd
      rcases hor with h | h
      · exact absurd h hact
      · subst h; subst hcmd
        simp [AddrConnection.request, hact, cmdPhase]
    · intro resp hor hcmd
      rcases hor with h | h
      · exact absurd h hact
      · subst h; subst hcmd
        simp [AddrConnection.request, hact, cmdPhase]

/-- Witness for C4: from a cold cache, a successful `ADR 3` followed by a
successful command returns the response and caches address 3. -/
theorem addr_request_behavior_witness :
    (AddrConnection.request none 3 (.ok "OK") (.ok "5.0")).result = .ok "5.0" ∧
    (AddrConnection.request none 3 (.ok "OK") (.ok "5.0")).active = some 3 :=
  (addr_request_behavior none 3 (.ok "OK") (.ok "5.0")).2.2.2.2 "5.0"
    (Or.inr rfl) rfl

/-- C10 (implicit frame effect): when the `ADR` exchange inside
`AddrConnection::request` fails — transport error or a non-`"OK"` reply —
the `active` cache retains exactly its prior value and the command exchange
never runs; `active` becomes `None` only when it was already `None` or the
command exchange after successful addressing failed. -/
theorem addr_request_adr_failure_frame (active : Option Addr) (addr : Addr)
    (adrRes cmdRes : Except Error String) :
    (∀ e, active ≠ some addr → adrRes = .error e →
        (AddrConnection.request active addr adrRes cmdRes).result = .error e ∧
        (AddrConnection.request active addr adrRes cmdRes).active = active ∧
        (AddrConnection.request active addr adrRes cmdRes).didCmd = false) ∧
    (∀ resp, active ≠ some addr → adrRes = .ok resp → resp ≠ "OK" →
        (AddrConnection.request active addr adrRes cmdRes).active = active ∧
        (AddrConnection.request active addr adrRes cmdRes).didCmd = false) ∧
    ((AddrConnection.request active addr adrRes cmdRes).active = none →
        active = none ∨
          (∃ e, cmdRes = .error e ∧
            (AddrConnection.request active addr adrRes cmdRes).didCmd = true)) := by
  refine ⟨?_, ?_, ?_⟩
  · intro e hne hadr
    subst hadr
    simp [AddrConnection.request, hne]
  · intro resp hne hadr hr
    subst hadr
    simp [AddrConnection.request, hne, hr]
  · intro hnone
    by_cases hact : active = some addr
    · cases cmdRes with
      | ok r =>
          rw [show AddrConnection.request active addr adrRes (.ok r) =
            cmdPhase addr (.ok r) false from by simp [AddrConnection.request, hact]]
            at hnone
          exact absurd hnone (by simp [cmdPhase])
      | error e =>
          refine Or.inr ⟨e, rfl, ?_⟩
          simp [AddrConnection.request, hact, cmdPhase]
    · cases adrRes with
      | error e2 =>
          simp [AddrConnection.request, hact] at hnone
          exact Or.inl hnone
      | ok resp =>
          by_cases hr : resp = "OK"
          · subst hr
            cases cmdRes with
            | ok r =>
                rw [show AddrConnection.request active addr (.ok "OK") (.ok r) =
                  cmdPhase addr (.ok r) true from by
                    simp [AddrConnection.request, hact]] at hnone
                exact absurd hnone (by simp [cmdPhase])
            | error e =>
                refine Or.inr ⟨e, rfl, ?_⟩
                simp [AddrConnection.request, hact, cmdPhase]
          · simp [AddrConnection.request, hact, hr] at hnone
            exact Or.inl hnone

/-- Witness for C10: with address 2 cached and a `Device` reply to `ADR 3`,
the cache still holds address 2 and no command was sent. -/
theorem addr_request_adr_failure_frame_witness :
    (AddrConnection.request (some 2) 3 (.ok "E01") (.ok "x")).active = some 2 ∧
    (AddrConnection.request (some 2) 3 (.ok "E01") (.ok "x")).didCmd = false :=
  (addr_request_adr_failure_frame (some 2) 3 (.ok "E01") (.ok "x")).2.1 "E01"
    (by simp) rfl (by decide)

/-- C6: `AddrConnection::is_online(addr)` clears the cache, issues
`ADR addr`, and returns `Ok(true)` with `active = Some(addr)` on reply
exactly `"OK"`, `Ok(false)` on timeout, `Err(Device(reply))` on any other
reply, and propagates other errors unchanged (with the cache left clear). -/
theorem is_online_behavior (addr : Addr) (adrRes : Except Error String) :
    (adrRes = .ok "OK" →
        AddrConnection.is_online addr adrRes = (.ok true, some addr)) ∧
    (adrRes = .error .timeout →
        AddrConnection.is_online addr adrRes = (.ok false, none)) ∧
    (∀ resp, adrRes = .ok resp → resp ≠ "OK" →
        AddrConnection.is_online addr adrRes = (.error (.device resp), none)) ∧
    (∀ e, adrRes = .error e → e ≠ .timeout →
        AddrConnection.is_online addr adrRes = (.error e, none)) := by
  refine ⟨?_, ?_, ?_, ?_⟩
  · intro h; subst h; simp [AddrConnection.is_online]
  · intro h; subst h; simp [AddrConnection.is_online]
  · intro resp h hne; subst h; simp [AddrConnection.is_online, hne]
  · intro e h hne; subst h
    cases e with
    | timeout => exact absurd rfl hne
    | io m => simp [AddrConnection.is_online]
    | decode m => simp [AddrConnection.is_online]
    | device r => simp [AddrConnection.is_online]

/-- Witness for C6: an `"OK"` reply to `ADR 3` yields `Ok(true)` with the
cache set to address 3. -/
theorem is_online_behavior_witness :
    AddrConnection.is_online 3 (.ok "OK") = (.ok true, some 3) :=
  (is_online_behavior 3 (.ok "OK")).1 rfl

/-- C7: on a byte stream that never produces the `\r` terminator every
attempt times out, `Connection::request` returns `Err(Timeout)`, and it
performs exactly `CMD_RETRIES` = retries + 1 = 3 write-then-read attempts
(the retry count being 2, per the spec's timing defaults). -/
theorem request_never_terminator_timeout (attempt : Nat → AttemptOutcome)
    (h : ∀ i, attempt i = .timedOut) :
    Connection.request attempt = (.error .timeout, CMD_RETRIES) ∧
      CMD_RETRIES = 2 + 1 := by
  refine ⟨?_, rfl⟩
  unfold Connection.request
  rw [requestLoop_all_timeout attempt h CMD_RETRIES 0, Nat.zero_add]

/-- Witness for C7: the always-silent stream. -/
theorem request_never_terminator_timeout_witness :
    Connection.request (fun _ => AttemptOutcome.timedOut) =
      (.error .timeout, CMD_RETRIES) ∧ CMD_RETRIES = 2 + 1 :=
  request_never_terminator_timeout (fun _ => AttemptOutcome.timedOut)
    (fun _ => rfl)

/-- C8: `IfaceVariable::read` snapshots the peer-written value via the
adapter and, when `last_value` is `Some`, overwrites the in-guard contents
with it; `ReadGuard::accept` stores the snapshot back into the variable and
sets `last_value = Some(snapshot)`; `ReadGuard::reject` rejects with the
formatted reason and leaves `last_value` exactly as it was. -/
theorem iface_read_guard_behavior {T V : Type} (A : Adapter T V)
    (s : IfaceVariable T V) (reason : String) :
    ((s.read A).value = A.load s.contents) ∧
    (∀ lv, s.last_value = some lv → (s.read A).guard = A.store s.contents lv) ∧
    (s.last_value = none → (s.read A).guard = s.contents) ∧
    ((s.read A).accept A =
        (A.store (s.read A).guard (A.load s.contents),
          some (A.load s.contents))) ∧
    ((s.read A).reject reason = (s.last_value, reason)) := by
  refine ⟨rfl, ?_, ?_, rfl, rfl⟩
  · intro lv hlv
    simp [IfaceVariable.read, hlv]
  · intro hlv
    simp [IfaceVariable.read, hlv]

/-- Witness for C8: a scalar variable holding 10 with `last_value = Some 4`
hands out a guard whose in-guard contents were rolled back to 4. -/
theorem iface_read_guard_behavior_witness :
    ((⟨10, some 4⟩ : IfaceVariable Nat Nat).read (scalarAdapter Nat)).guard = 4 :=
  (iface_read_guard_behavior (scalarAdapter Nat) ⟨10, some 4⟩ "r").2.1 4 rfl

/-- C1: when the current slot is empty, `Scheduler::current` selects the
next address exactly as the code's policy dictates — due offline head with
(even counter or empty online queue) is taken as not-online; otherwise a
non-empty online queue's head is taken (offline head pushed back at the
front); otherwise the code sleeps until the offline head's timestamp and
takes it; with an empty offline queue the online head is taken — and the
fairness counter increases by exactly one on each successful selection. -/
theorem scheduler_current_selection (s : Scheduler) (now : Nat)
    (hcur : s.current = none) :
    (∀ ts a restOff, s.offline = (ts, a) :: restOff → ts ≤ now →
        (s.counter % 2 = 0 ∨ s.online = []) →
        s.currentStep now = some ({ s with
          current := some (a, false)
          offline := restOff
          counter := s.counter + 1 }, none)) ∧
    (∀ ts a restOff oa restOn, s.offline = (ts, a) :: restOff →
        ¬ (ts ≤ now ∧ (s.counter % 2 = 0 ∨ s.online = [])) →
        s.online = oa :: restOn →
        s.currentStep now = some ({ s with
          current := some (oa, true)
          online := restOn
          offline := (ts, a) :: restOff
          counter := s.counter + 1 }, none)) ∧
    (∀ ts a restOff, s.offline = (ts, a) :: restOff →
        ¬ (ts ≤ now ∧ (s.counter % 2 = 0 ∨ s.online = [])) →
        s.online = [] →
        s.currentStep now = some ({ s with
          current := some (a, false)
          offline := restOff
          counter := s.counter + 1 }, some ts)) ∧
    (∀ oa restOn, s.offline = [] → s.online = oa :: restOn →
        s.currentStep now = some ({ s with
          current := some (oa, true)
          online := restOn
          counter := s.counter + 1 }, none)) ∧
    (∀ s2 slept, s.currentStep now = some (s2, slept) →
        s2.counter = s.counter + 1) := by
  refine ⟨?_, ?_, ?_, ?_, ?_⟩
  · intro ts a restOff hoff hts hpar
    simp only [Scheduler.currentStep, hcur, Scheduler.pick, hoff]
    rw [if_pos ⟨hts, hpar⟩]
  · intro ts a restOff oa restOn hoff hneg hon
    simp only [Scheduler.currentStep, hcur, Scheduler.pick, hoff]
    rw [if_neg hneg, hon]
  · intro ts a restOff hoff hneg hon
    simp only [Scheduler.currentStep, hcur, Scheduler.pick, hoff]
    rw [if_neg hneg, hon]
  · intro oa restOn hoff hon
    simp only [Scheduler.currentStep, hcur, Scheduler.pick, hoff]
    rw [hon]
  · intro s2 slept h
    simp only [Scheduler.currentStep, hcur] at h
    cases hoff : s.offline with
    | cons p restOff =>
        obtain ⟨ts, a⟩ := p
        simp only [Scheduler.pick, hoff] at h
        by_cases hc : ts ≤ now ∧ (s.counter % 2 = 0 ∨ s.online = [])
        · rw [if_pos hc] at h
          injection h with h2
          injection h2 with ha hb
          subst ha
          rfl
        · rw [if_neg hc] at h
          cases hon : s.online with
          | cons oa restOn =>
              rw [hon] at h
              injection h with h2
              injection h2 with ha hb
              subst ha
              rfl
          | nil =>
              rw [hon] at h
              injection h with h2
              injection h2 with ha hb
              subst ha
              rfl
    | nil =>
        simp only [Scheduler.pick, hoff] at h
        cases hon : s.online with
        | cons oa restOn =>
            rw [hon] at h
            injection h with h2
            injection h2 with ha hb
            subst ha
            rfl
        | nil =>
            rw [hon] at h
            exact Option.noConfusion h

/-- Witness for C1: a due offline head with an even counter is selected as
not-online ahead of the online queue. -/
theorem scheduler_current_selection_witness :
    Scheduler.currentStep ⟨none, [5], [(0, 7)], 0⟩ 3 =
      some (⟨some (7, false), [5], [], 1⟩, none) :=
  (scheduler_current_selection ⟨none, [5], [(0, 7)], 0⟩ 3 rfl).1 0 7 [] rfl
    (by decide) (Or.inl rfl)

/-- C2: starting from a scheduler over distinct addresses, after any
sequence of `current` / `yield_online` / `yield_offline` operations each of
those addresses occurs exactly once across the current slot, the online
queue and the offline queue, and no other address ever occurs there. -/
theorem scheduler_conservation (addrs : List Addr) (hnd : addrs.Nodup)
    (now0 : Nat) (ops : List SchedOp) (a : Addr) :
    ((Scheduler.new addrs now0).applyAll ops).addrList.count a =
      if a ∈ addrs then 1 else 0 := by
  have hperm := (addrList_applyAll_perm (Scheduler.new addrs now0) ops).trans
    (addrList_new_perm addrs now0)
  rw [hperm.count_eq]
  by_cases ha : a ∈ addrs
  · rw [if_pos ha]
    exact List.count_eq_one_of_mem hnd ha
  · rw [if_neg ha]
    exact List.count_eq_zero_of_not_mem ha

/-- Witness for C2: two selections and an offline yield over addresses
`[2, 5]` still hold address 2 exactly once. -/
theorem scheduler_conservation_witness :
    ((Scheduler.new [2, 5] 0).applyAll
        [.select 0, .yieldOffline 0, .select 0]).addrList.count 2 = 1 := by
  have h := scheduler_conservation [2, 5] (by decide) 0
    [.select 0, .yieldOffline 0, .select 0] 2
  simpa using h

/-- C3: in the queued branch, an online device whose client supplies a
command that fails on the bus gets `Signal::Off` and an offline yield; a
`Yield` marker or the yield timeout gives an online yield; an offline
device has all its pending queued requests drained unanswered and
`is_online` consulted — true sends `Signal::On` and yields online, false or
an error yields offline. -/
theorem mux_queued_turn (pending : List QueTx) (busResult : Except Error String)
    (onlineRes : Except Error Bool) :
    (∀ c rest e, pending = QueTx.cmd c :: rest → busResult = .error e →
        (queuedTurn true pending busResult onlineRes).sigs = [Signal.off] ∧
        (queuedTurn true pending busResult onlineRes).action = .yieldOffline) ∧
    (∀ rest, pending = QueTx.yieldMark :: rest →
        (queuedTurn true pending busResult onlineRes).action = .yieldOnline) ∧
    (pending = [] →
        (queuedTurn true pending busResult onlineRes).action = .yieldOnline) ∧
    ((queuedTurn false pending busResult onlineRes).drained = pending ∧
      (queuedTurn false pending busResult onlineRes).response = none ∧
      (queuedTurn false pending busResult onlineRes).checkedOnline = true) ∧
    (onlineRes = .ok true →
        (queuedTurn false pending busResult onlineRes).sigs = [Signal.on] ∧
        (queuedTurn false pending busResult onlineRes).action = .yieldOnline) ∧
    ((onlineRes = .ok false ∨ ∃ e, onlineRes = .error e) →
        (queuedTurn false pending busResult onlineRes).action = .yieldOffline) := by
  refine ⟨?_, ?_, ?_, ?_, ?_, ?_⟩
  · intro c rest e hp hb
    subst hp; subst hb
    exact ⟨rfl, rfl⟩
  · intro rest hp
    subst hp
    rfl
  · intro hp
    subst hp
    rfl
  · exact ⟨rfl, rfl, rfl⟩
  · intro ho
    subst ho
    exact ⟨rfl, rfl⟩
  · intro ho
    rcases ho with h | ⟨e, h⟩ <;> subst h <;> rfl

/-- Witness for C3: a failing queued command (`Timeout` on the bus) sends
`Signal::Off` and yields the guard offline. -/
theorem mux_queued_turn_witness :
    (queuedTurn true [QueTx.cmd "MV?"] (.error .timeout) (.ok true)).sigs =
        [Signal.off] ∧
    (queuedTurn true [QueTx.cmd "MV?"] (.error .timeout) (.ok true)).action =
        SchedAction.yieldOffline :=
  (mux_queued_turn [QueTx.cmd "MV?"] (.error .timeout) (.ok true)).1 "MV?" []
    .timeout rfl rfl

/-- C5: across any chunk sequence the SRQ filter passes through exactly the
bytes without the high bit set, in order (every high-bit byte is removed);
a pending high-bit byte followed by a matching high-bit byte — also at the
start of a later read — emits that address once on the SRQ channel; a
mismatched pair emits nothing and is discarded; a pending singleton
followed by a plain byte is discarded while the plain byte passes; and a
poll whose filtered output is empty on non-empty raw input reports
`Poll::Pending`. -/
theorem srq_filter_behavior :
    (∀ prev chunks, (filterChunks prev chunks).2.1 =
        chunks.flatten.filter (fun b => decide (b < 0x80))) ∧
    (∀ p b a rest, byte_is_intr b = some a → a = p →
        (filterChunk (some p) (b :: rest)).2.2 =
          a :: (filterChunk none rest).2.2) ∧
    (∀ p b a, byte_is_intr b = some a → a ≠ p →
        filterStep (some p) b = (none, [], [])) ∧
    (∀ p b, byte_is_intr b = none →
        filterStep (some p) b = (none, [b], [])) ∧
    (∀ prev chunk, chunk ≠ [] → (filterChunk prev chunk).2.1 = [] →
        (FilterReader.poll_read prev chunk).2.1 = PollResult.pending) := by
  refine ⟨fun prev chunks => filterChunks_out chunks prev, ?_, ?_, ?_, ?_⟩
  · intro p b a rest hb ha
    subst ha
    simp [filterChunk, filterStep, hb]
  · intro p b a hb hne
    simp [filterStep, hb, hne]
  · intro p b hb
    simp [filterStep, hb]
  · intro prev chunk hne hout
    simp [FilterReader.poll_read, hne, hout]

/-- Witness for C5: pending address 3 followed by a second `0x83` in the
next read emits SRQ 3 exactly once. -/
theorem srq_filter_behavior_witness :
    (filterChunk (some 3) (131 :: [65])).2.2 =
      3 :: (filterChunk none [65]).2.2 :=
  srq_filter_behavior.2.1 3 131 3 [65] (by decide) rfl

end TdkLambda
